import Mathlib

/-
Verification of the simplecache module (simplecache.py): a memoization
decorator factory for instance methods keyed on a single distinguishing
argument (a numpy.ndarray), together with the ArrayMethodCacheMixin class
that owns the per-instance cache registry.

Shallow embedding conventions:
  * A Python dict is an association list; alGet/alSet model item access and
    item assignment (replace the binding in place, append if absent).
  * The per-instance attribute _cachedict is an Option (Registry C):
    Option.none models an instance on which ArrayMethodCacheMixin.__init__
    never ran, so that attribute access raises AttributeError.
  * An eviction-policy cache (cachetools-style) is consumed through the
    CacheType record: new (the cachetype constructor applied to cachesize),
    get (item lookup: Option.none models KeyError on miss; on a hit it may
    also update the cache's internal bookkeeping, e.g. LRU recency, hence
    the returned updated cache), and set (item assignment: Option.none
    models the ValueError rejection path, leaving the cache unchanged).
  * The wrapper's observable outcome of one call is a CallResult: the
    returned value or propagated exception, the resulting _cachedict
    attribute, whether the underlying method body ran (invoked), and
    whether a new cache object was constructed by this call (constructed).
  * numpy.ndarray is NDArray: an object identity tag plus its element
    contents; tostring serializes the elements to their flat little-endian
    64-bit byte buffer.
-/

/-- Python dict item lookup on an association list: d[k], with Option.none
modelling KeyError. -/
def alGet {K V : Type} [DecidableEq K] : List (K × V) → K → Option V
  | [], _ => Option.none
  | (k', v') :: rest, k => if k' = k then Option.some v' else alGet rest k

/-- Python dict item assignment on an association list: d[k] = v replaces an
existing binding in place and appends a new binding otherwise. -/
def alSet {K V : Type} [DecidableEq K] : List (K × V) → K → V → List (K × V)
  | [], k, v => [(k, v)]
  | (k', v') :: rest, k, v =>
      if k' = k then (k, v) :: rest else (k', v') :: alSet rest k v

/-- Remove every binding of key k from an association list. -/
def eraseKey {K V : Type} [DecidableEq K] (k : K) : List (K × V) → List (K × V)
  | [] => []
  | (k', v') :: rest =>
      if k' = k then eraseKey k rest else (k', v') :: eraseKey k rest

/-- The per-instance cache registry _cachedict: method name to cache. -/
abbrev Registry (C : Type) : Type := List (String × C)

/-- The exceptions that can escape the wrapper: AttributeError from accessing
self._cachedict on an instance that lacks it, or an exception raised by the
underlying method body (KeyError and ValueError are caught internally). -/
inductive PyErr (E : Type) : Type where
  | attributeError : PyErr E
  | raised : E → PyErr E
deriving DecidableEq

/-- Observable outcome of one call of a decorated method on one instance:
the returned value or escaped exception, the instance's resulting _cachedict
attribute, whether the underlying method body was invoked during the call,
and whether the call constructed a new cache object. -/
structure CallResult (C V E : Type) : Type where
  result : Except (PyErr E) V
  cachedict : Option (Registry C)
  invoked : Bool
  constructed : Bool

/-- The eviction-policy capability consumed by the wrapper (the cachetype
argument of memoized, e.g. cachetools.LRUCache): a constructor taking the
cachesize, item lookup (Option.none is a KeyError miss; a hit may update
internal bookkeeping, returning the updated cache), and item assignment
(Option.none is the ValueError rejection, which mutates nothing). -/
structure CacheType (C K V : Type) : Type where
  new : Nat → C
  get : C → K → Option (V × C)
  set : C → K → V → Option C

/-- Lines 151-156 of simplecache.py: cache[argkey] = retval inside
try/except ValueError, then return retval. A rejection leaves both the
cache and the registry untouched; a successful store is modelled by
writing the mutated cache back into the registry under mname. -/
def storeAttempt {C K V E : Type} (ct : CacheType C K V) (mname : String)
    (d : Registry C) (cache : C) (argkey : K) (constructed : Bool)
    (retval : V) : CallResult C V E :=
  match ct.set cache argkey retval with
  | Option.none =>
      CallResult.mk (Except.ok retval) (Option.some d) true constructed
  | Option.some cache' =>
      CallResult.mk (Except.ok retval) (Option.some (alSet d mname cache'))
        true constructed

/-- Line 150 of simplecache.py continued: the outcome of invoking the
underlying method on a cache miss. An exception from the method body
propagates (nothing is stored); a returned value goes to the store
attempt. -/
def computeStep {C K V E : Type} (ct : CacheType C K V) (mname : String)
    (d : Registry C) (cache : C) (argkey : K) (constructed : Bool) :
    Except E V → CallResult C V E
  | Except.error e =>
      CallResult.mk (Except.error (PyErr.raised e)) (Option.some d)
        true constructed
  | Except.ok retval =>
      storeAttempt ct mname d cache argkey constructed retval

/-- Lines 144-156 of simplecache.py: the body of wrapper after the cache for
mname has been resolved to cache inside registry d (constructed records
whether the resolution step had to create it). Derive argkey, probe the
cache (returning the cached value immediately on a hit, with the hit's
in-place bookkeeping mutation written back into the registry), and on a
KeyError miss invoke the underlying method and attempt the store. -/
def wrapperBody {C K V A R E : Type} (ct : CacheType C K V) (kf : A → K)
    (mname : String) (arraymethod : A → R → Except E V) (d : Registry C)
    (cache : C) (constructed : Bool) (arrayarg : A) (rest : R) :
    CallResult C V E :=
  match ct.get cache (kf arrayarg) with
  | Option.some (v, cache') =>
      CallResult.mk (Except.ok v) (Option.some (alSet d mname cache'))
        false constructed
  | Option.none =>
      computeStep ct mname d cache (kf arrayarg) constructed
        (arraymethod arrayarg rest)

/-- Lines 132-143 of simplecache.py: cache = self._cachedict[mname] inside
try/except KeyError; on KeyError construct cachetype(cachesize) and
register it under mname before proceeding. -/
def wrapperLookup {C K V A R E : Type} (ct : CacheType C K V)
    (cachesize : Nat) (kf : A → K) (mname : String)
    (arraymethod : A → R → Except E V) (d : Registry C) (arrayarg : A)
    (rest : R) : CallResult C V E :=
  match alGet d mname with
  | Option.some cache =>
      wrapperBody ct kf mname arraymethod d cache false arrayarg rest
  | Option.none =>
      wrapperBody ct kf mname arraymethod
        (alSet d mname (ct.new cachesize)) (ct.new cachesize) true
        arrayarg rest

/-- Lines 127-156 of simplecache.py: the wrapper closure produced by the
decorator for a method named mname, called on an instance whose _cachedict
attribute is self (Option.none when the mixin's initializer never ran, in
which case the AttributeError from self._cachedict is not caught by the
except KeyError handler and escapes). -/
def wrapper {C K V A R E : Type} (ct : CacheType C K V) (cachesize : Nat)
    (kf : A → K) (mname : String) (arraymethod : A → R → Except E V)
    (self : Option (Registry C)) (arrayarg : A) (rest : R) :
    CallResult C V E :=
  match self with
  | Option.none =>
      CallResult.mk (Except.error PyErr.attributeError) Option.none
        false false
  | Option.some d =>
      wrapperLookup ct cachesize kf mname arraymethod d arrayarg rest

/-- Run a sequence of calls of one decorated method (fixed mname) on one
instance, threading the _cachedict attribute, and count how many cache
objects the whole sequence constructs. -/
def runCalls {C K V A R E : Type} (ct : CacheType C K V) (cachesize : Nat)
    (kf : A → K) (mname : String) (arraymethod : A → R → Except E V) :
    Option (Registry C) → List (A × R) → Option (Registry C) × Nat
  | st, [] => (st, 0)
  | st, (a, r) :: calls =>
      let out := wrapper ct cachesize kf mname arraymethod st a r
      let t := runCalls ct cachesize kf mname arraymethod out.cachedict calls
      (t.1, (if out.constructed then 1 else 0) + t.2)

/-- An undecorated method: its __name__, its __doc__, and its body, which
takes the distinguishing array argument and the remaining
positional/keyword arguments and either returns a value or raises. -/
structure RawMethod (A R V E : Type) : Type where
  name : String
  doc : String
  fn : A → R → Except E V

/-- A method as seen by a caller after decoration: metadata plus a call
operation over the instance's _cachedict attribute. -/
structure DecMethod (C A R V E : Type) : Type where
  name : String
  doc : String
  call : Option (Registry C) → A → R → CallResult C V E

/-- Calling an undecorated method body through the instance-call interface:
the body runs unconditionally, any exception propagates, and the
_cachedict attribute is neither read nor written. -/
def plainCall {C A R V E : Type} (f : A → R → Except E V)
    (self : Option (Registry C)) (a : A) (r : R) : CallResult C V E :=
  CallResult.mk
    (match f a r with
     | Except.ok v => Except.ok v
     | Except.error e => Except.error (PyErr.raised e))
    self true false

/-- Lines 92-158 of simplecache.py: the decorator factory memoized applied
to a method. With cachetype None (Option.none) it returns the identity
decorator, so the decorated method is the original one; otherwise it wraps
the method body in wrapper, with functools.wraps copying __name__ and
__doc__ and mname bound to the method's own __name__. -/
def memoized {C K V A R E : Type} (cachetype : Option (CacheType C K V))
    (cachesize : Nat) (keyfcn : A → K) (m : RawMethod A R V E) :
    DecMethod C A R V E :=
  match cachetype with
  | Option.none => DecMethod.mk m.name m.doc (plainCall m.fn)
  | Option.some ct =>
      DecMethod.mk m.name m.doc (wrapper ct cachesize keyfcn m.name m.fn)

/-- A numpy.ndarray argument: an object identity tag (distinguishing
separately constructed instances) and its element contents. -/
structure NDArray : Type where
  objectId : Nat
  data : List Int
deriving DecidableEq

/-- Little-endian byte serialization of one 64-bit element (two's
complement), modelling one element's slot in the ndarray buffer. -/
def int64Bytes (x : Int) : List Nat :=
  [(x % (2 ^ 64 : Int)).toNat % 256,
   (x % (2 ^ 64 : Int)).toNat / 256 % 256,
   (x % (2 ^ 64 : Int)).toNat / 256 ^ 2 % 256,
   (x % (2 ^ 64 : Int)).toNat / 256 ^ 3 % 256,
   (x % (2 ^ 64 : Int)).toNat / 256 ^ 4 % 256,
   (x % (2 ^ 64 : Int)).toNat / 256 ^ 5 % 256,
   (x % (2 ^ 64 : Int)).toNat / 256 ^ 6 % 256,
   (x % (2 ^ 64 : Int)).toNat / 256 ^ 7 % 256]

/-- array.tostring(): the raw byte buffer of the array's elements. -/
def NDArray.tostring (a : NDArray) : List Nat :=
  (a.data.map int64Bytes).flatten

/-- Lines 85-89 of simplecache.py: the default key function returns
array.tostring(). -/
def keyfcn_default (array : NDArray) : List Nat :=
  NDArray.tostring array

/-- An instance of a class inheriting ArrayMethodCacheMixin: the _cachedict
attribute (absent before the mixin's initializer runs) plus whatever other
state any superclass initializer would manage. -/
structure MixinInstance (C S : Type) : Type where
  cachedict : Option (Registry C)
  other : S

/-- Lines 168-171 of simplecache.py: ArrayMethodCacheMixin.__init__ accepts
arbitrary positional and keyword arguments and its whole body is
self._cachedict = {}; it calls no superclass initializer, so every other
piece of instance state is left untouched. -/
def ArrayMethodCacheMixin_init {C S P Q : Type} (self : MixinInstance C S)
    (_args : P) (_kwargs : Q) : MixinInstance C S :=
  MixinInstance.mk (Option.some []) self.other

/-- A concrete eviction-policy model for witnesses: an unbounded dict-backed
cache whose store always succeeds (cachetools Cache behaviour when no item
ever exceeds maxsize). -/
def dictCT (K V : Type) [DecidableEq K] : CacheType (List (K × V)) K V :=
  CacheType.mk (fun _ => [])
    (fun c k => (alGet c k).map (fun v => (v, c)))
    (fun c k v => Option.some (alSet c k v))

/-- A concrete LRU eviction-policy model for witnesses: most-recent-first
entry list bounded by maxsize. With the default per-item size of 1,
cachetools raises ValueError on store exactly when the item cannot fit,
i.e. when maxsize = 0. -/
structure LRUCacheM (K V : Type) : Type where
  maxsize : Nat
  entries : List (K × V)
deriving DecidableEq

/-- LRU lookup: a hit moves the entry to the front (recency update). -/
def lruGet {K V : Type} [DecidableEq K] (c : LRUCacheM K V) (k : K) :
    Option (V × LRUCacheM K V) :=
  match alGet c.entries k with
  | Option.none => Option.none
  | Option.some v =>
      Option.some (v, LRUCacheM.mk c.maxsize ((k, v) :: eraseKey k c.entries))

/-- LRU store: rejected (ValueError) when the item cannot fit (maxsize = 0);
otherwise insert at the front and evict least-recently-used entries beyond
maxsize. -/
def lruSet {K V : Type} [DecidableEq K] (c : LRUCacheM K V) (k : K) (v : V) :
    Option (LRUCacheM K V) :=
  if c.maxsize = 0 then Option.none
  else Option.some
    (LRUCacheM.mk c.maxsize (((k, v) :: eraseKey k c.entries).take c.maxsize))

/-- The LRU model packaged as a CacheType. -/
def lruCT (K V : Type) [DecidableEq K] : CacheType (LRUCacheM K V) K V :=
  CacheType.mk (fun size => LRUCacheM.mk size []) lruGet lruSet

/-- Fixture: a method body that returns the array length plus the extra
argument. -/
def exMethod (a : NDArray) (r : Nat) : Except String Nat :=
  Except.ok (a.data.length + r)

/-- Fixture: a method body that always raises. -/
def exFailMethod (_a : NDArray) (_r : Nat) : Except String Nat :=
  Except.error "boom"

/-- Fixture: an array instance. -/
def exA1 : NDArray := NDArray.mk 0 [1, 2]

/-- Fixture: a separately constructed array with the same contents as exA1
but a different object identity. -/
def exA2 : NDArray := NDArray.mk 7 [1, 2]

/-- Registry state from which no further cache construction can happen for
mname: either the attribute is absent (every call fails before the
construction point) or the registry already holds a cache for mname. -/
def regReady {C : Type} (mname : String) : Option (Registry C) → Bool
  | Option.none => true
  | Option.some d => (alGet d mname).isSome

theorem alGet_alSet_self {K V : Type} [DecidableEq K] (d : List (K × V))
    (k : K) (v : V) : alGet (alSet d k v) k = Option.some v := by
  induction d with
  | nil => simp [alGet, alSet]
  | cons p rest ih =>
    obtain ⟨k', v'⟩ := p
    by_cases h : k' = k
    · simp [alGet, alSet, h]
    · simp [alGet, alSet, h, ih]

theorem wrapper_some_eq {C K V A R E : Type} (ct : CacheType C K V)
    (cachesize : Nat) (kf : A → K) (mname : String)
    (m : A → R → Except E V) (d : Registry C) (a : A) (r : R) :
    wrapper ct cachesize kf mname m (Option.some d) a r =
      wrapperLookup ct cachesize kf mname m d a r := rfl

theorem wrapperLookup_found {C K V A R E : Type} (ct : CacheType C K V)
    (cachesize : Nat) (kf : A → K) (mname : String)
    (m : A → R → Except E V) (d : Registry C) (cache : C) (a : A) (r : R)
    (halg : alGet d mname = Option.some cache) :
    wrapperLookup ct cachesize kf mname m d a r =
      wrapperBody ct kf mname m d cache false a r := by
  unfold wrapperLookup
  rw [halg]

theorem wrapperLookup_create {C K V A R E : Type} (ct : CacheType C K V)
    (cachesize : Nat) (kf : A → K) (mname : String)
    (m : A → R → Except E V) (d : Registry C) (a : A) (r : R)
    (halg : alGet d mname = Option.none) :
    wrapperLookup ct cachesize kf mname m d a r =
      wrapperBody ct kf mname m (alSet d mname (ct.new cachesize))
        (ct.new cachesize) true a r := by
  unfold wrapperLookup
  rw [halg]

theorem wrapperBody_hit {C K V A R E : Type} (ct : CacheType C K V)
    (kf : A → K) (mname : String) (m : A → R → Except E V) (d : Registry C)
    (cache : C) (b : Bool) (a : A) (r : R) (v : V) (cache' : C)
    (hget : ct.get cache (kf a) = Option.some (v, cache')) :
    wrapperBody ct kf mname m d cache b a r =
      CallResult.mk (Except.ok v) (Option.some (alSet d mname cache'))
        false b := by
  unfold wrapperBody
  rw [hget]

theorem wrapperBody_miss {C K V A R E : Type} (ct : CacheType C K V)
    (kf : A → K) (mname : String) (m : A → R → Except E V) (d : Registry C)
    (cache : C) (b : Bool) (a : A) (r : R)
    (hget : ct.get cache (kf a) = Option.none) :
    wrapperBody ct kf mname m d cache b a r =
      computeStep ct mname d cache (kf a) b (m a r) := by
  unfold wrapperBody
  rw [hget]

theorem storeAttempt_reject {C K V E : Type} (ct : CacheType C K V)
    (mname : String) (d : Registry C) (cache : C) (k : K) (b : Bool) (v : V)
    (hset : ct.set cache k v = Option.none) :
    @storeAttempt C K V E ct mname d cache k b v =
      CallResult.mk (Except.ok v) (Option.some d) true b := by
  unfold storeAttempt
  rw [hset]

theorem storeAttempt_store {C K V E : Type} (ct : CacheType C K V)
    (mname : String) (d : Registry C) (cache : C) (k : K) (b : Bool) (v : V)
    (cache' : C) (hset : ct.set cache k v = Option.some cache') :
    @storeAttempt C K V E ct mname d cache k b v =
      CallResult.mk (Except.ok v) (Option.some (alSet d mname cache'))
        true b := by
  unfold storeAttempt
  rw [hset]

theorem computeStep_error {C K V E : Type} (ct : CacheType C K V)
    (mname : String) (d : Registry C) (cache : C) (k : K) (b : Bool)
    (e : E) :
    computeStep ct mname d cache k b (Except.error e) =
      CallResult.mk (Except.error (PyErr.raised e)) (Option.some d)
        true b := rfl

theorem computeStep_ok {C K V E : Type} (ct : CacheType C K V)
    (mname : String) (d : Registry C) (cache : C) (k : K) (b : Bool)
    (v : V) :
    computeStep ct mname d cache k b (Except.ok (ε := E) v) =
      storeAttempt ct mname d cache k b v := rfl

theorem wrapperBody_constructed {C K V A R E : Type} (ct : CacheType C K V)
    (kf : A → K) (mname : String) (m : A → R → Except E V) (d : Registry C)
    (cache : C) (b : Bool) (a : A) (r : R) :
    (wrapperBody ct kf mname m d cache b a r).constructed = b := by
  cases hget : ct.get cache (kf a) with
  | some p =>
    obtain ⟨v, cache'⟩ := p
    rw [wrapperBody_hit ct kf mname m d cache b a r v cache' hget]
  | none =>
    rw [wrapperBody_miss ct kf mname m d cache b a r hget]
    cases hm : m a r with
    | error e => rw [computeStep_error]
    | ok retval =>
      rw [computeStep_ok]
      cases hset : ct.set cache (kf a) retval with
      | none =>
        rw [storeAttempt_reject ct mname d cache (kf a) b retval hset]
      | some c' =>
        rw [storeAttempt_store ct mname d cache (kf a) b retval c' hset]

theorem wrapperBody_cachedict_ready {C K V A R E : Type}
    (ct : CacheType C K V) (kf : A → K) (mname : String)
    (m : A → R → Except E V) (d : Registry C) (cache : C) (b : Bool) (a : A)
    (r : R) (h : (alGet d mname).isSome = true) :
    ∃ d', (wrapperBody ct kf mname m d cache b a r).cachedict = Option.some d'
      ∧ (alGet d' mname).isSome = true := by
  cases hget : ct.get cache (kf a) with
  | some p =>
    obtain ⟨v, cache'⟩ := p
    rw [wrapperBody_hit ct kf mname m d cache b a r v cache' hget]
    exact ⟨alSet d mname cache', rfl, by rw [alGet_alSet_self]; rfl⟩
  | none =>
    rw [wrapperBody_miss ct kf mname m d cache b a r hget]
    cases hm : m a r with
    | error e => rw [computeStep_error]; exact ⟨d, rfl, h⟩
    | ok retval =>
      rw [computeStep_ok]
      cases hset : ct.set cache (kf a) retval with
      | none =>
        rw [storeAttempt_reject ct mname d cache (kf a) b retval hset]
        exact ⟨d, rfl, h⟩
      | some c' =>
        rw [storeAttempt_store ct mname d cache (kf a) b retval c' hset]
        exact ⟨alSet d mname c', rfl, by rw [alGet_alSet_self]; rfl⟩

theorem wrapper_ready_after {C K V A R E : Type} (ct : CacheType C K V)
    (cachesize : Nat) (kf : A → K) (mname : String)
    (m : A → R → Except E V) (st : Option (Registry C)) (a : A) (r : R) :
    regReady mname (wrapper ct cachesize kf mname m st a r).cachedict
      = true := by
  cases st with
  | none => rfl
  | some d =>
    rw [wrapper_some_eq]
    cases halg : alGet d mname with
    | some cache =>
      rw [wrapperLookup_found ct cachesize kf mname m d cache a r halg]
      obtain ⟨d', hd', hsome⟩ :=
        wrapperBody_cachedict_ready ct kf mname m d cache false a r
          (by rw [halg]; rfl)
      rw [hd']
      simpa [regReady] using hsome
    | none =>
      rw [wrapperLookup_create ct cachesize kf mname m d a r halg]
      obtain ⟨d', hd', hsome⟩ :=
        wrapperBody_cachedict_ready ct kf mname m
          (alSet d mname (ct.new cachesize)) (ct.new cachesize) true a r
          (by rw [alGet_alSet_self]; rfl)
      rw [hd']
      simpa [regReady] using hsome

theorem wrapper_constructed_of_ready {C K V A R E : Type}
    (ct : CacheType C K V) (cachesize : Nat) (kf : A → K) (mname : String)
    (m : A → R → Except E V) (st : Option (Registry C)) (a : A) (r : R)
    (h : regReady mname st = true) :
    (wrapper ct cachesize kf mname m st a r).constructed = false := by
  cases st with
  | none => rfl
  | some d =>
    rw [wrapper_some_eq]
    have hsome : (alGet d mname).isSome = true := by simpa [regReady] using h
    cases halg : alGet d mname with
    | some cache =>
      rw [wrapperLookup_found ct cachesize kf mname m d cache a r halg]
      exact wrapperBody_constructed ct kf mname m d cache false a r
    | none => rw [halg] at hsome; simp at hsome

theorem runCalls_ready_zero {C K V A R E : Type} (ct : CacheType C K V)
    (cachesize : Nat) (kf : A → K) (mname : String)
    (m : A → R → Except E V) (calls : List (A × R)) :
    ∀ st : Option (Registry C), regReady mname st = true →
      (runCalls ct cachesize kf mname m st calls).2 = 0 := by
  induction calls with
  | nil => intro st _; rfl
  | cons c rest ih =>
    intro st h
    obtain ⟨a, r⟩ := c
    simp only [runCalls]
    rw [wrapper_constructed_of_ready ct cachesize kf mname m st a r h,
      ih _ (wrapper_ready_after ct cachesize kf mname m st a r)]
    rfl

theorem wrapperBody_result_cached {C K V A R E : Type} (ct : CacheType C K V)
    (kf : A → K) (mname : String) (m : A → R → Except E V) (d : Registry C)
    (cache : C) (b : Bool) (a : A) (r : R) (v1 : V)
    (hGetGet : ∀ (c : C) (k : K) (v : V) (c' : C),
      ct.get c k = Option.some (v, c') →
        ∃ c'', ct.get c' k = Option.some (v, c''))
    (hGetSet : ∀ (c : C) (k : K) (v : V) (c' : C),
      ct.set c k v = Option.some c' →
        ∃ c'', ct.get c' k = Option.some (v, c''))
    (hAccept : ∀ (c : C) (k : K) (v : V), (ct.set c k v).isSome = true)
    (hres : (wrapperBody ct kf mname m d cache b a r).result = Except.ok v1) :
    ∃ cstar, (wrapperBody ct kf mname m d cache b a r).cachedict =
        Option.some (alSet d mname cstar) ∧
      ∃ c2, ct.get cstar (kf a) = Option.some (v1, c2) := by
  cases hget : ct.get cache (kf a) with
  | some p =>
    obtain ⟨v, cache'⟩ := p
    rw [wrapperBody_hit ct kf mname m d cache b a r v cache' hget] at hres ⊢
    have hv : v = v1 := by simpa using hres
    rw [← hv]
    exact ⟨cache', rfl, hGetGet cache (kf a) v cache' hget⟩
  | none =>
    rw [wrapperBody_miss ct kf mname m d cache b a r hget] at hres ⊢
    cases hm : m a r with
    | error e =>
      rw [hm, computeStep_error] at hres
      simp at hres
    | ok retval =>
      rw [hm, computeStep_ok] at hres
      rw [computeStep_ok]
      cases hset : ct.set cache (kf a) retval with
      | none =>
        have := hAccept cache (kf a) retval
        rw [hset] at this
        simp at this
      | some c1 =>
        rw [storeAttempt_store ct mname d cache (kf a) b retval c1 hset]
          at hres ⊢
        have hv : retval = v1 := by simpa using hres
        rw [← hv]
        exact ⟨c1, rfl, hGetSet cache (kf a) retval c1 hset⟩

theorem dictCT_getGet {K V : Type} [DecidableEq K] (c : List (K × V)) (k : K)
    (v : V) (c' : List (K × V))
    (h : (dictCT K V).get c k = Option.some (v, c')) :
    ∃ c'', (dictCT K V).get c' k = Option.some (v, c'') := by
  cases halg : alGet c k with
  | none => simp [dictCT, halg] at h
  | some w =>
    simp [dictCT, halg] at h
    obtain ⟨hw, hc⟩ := h
    subst hw
    subst hc
    exact ⟨c, by simp [dictCT, halg]⟩

theorem dictCT_getSet {K V : Type} [DecidableEq K] (c : List (K × V)) (k : K)
    (v : V) (c' : List (K × V))
    (h : (dictCT K V).set c k v = Option.some c') :
    ∃ c'', (dictCT K V).get c' k = Option.some (v, c'') := by
  simp [dictCT] at h
  subst h
  exact ⟨alSet c k v, by simp [dictCT, alGet_alSet_self]⟩

theorem dictCT_accept {K V : Type} [DecidableEq K] (c : List (K × V)) (k : K)
    (v : V) : ((dictCT K V).set c k v).isSome = true := rfl

/-- Claim C1: with the cache registry present, and the eviction policy
meeting its contract (a hit is repeatable, a stored value is subsequently
retrievable, and every store is accepted), calling a decorated method
twice with two separately constructed distinguishing arguments that
derive the same key invokes the underlying computation at most once: the
second call is a cache hit returning the exact stored result of the first
call, without invoking the underlying method. -/
theorem C1_idempotent_caching {C K V A R E : Type} (ct : CacheType C K V)
    (cachesize : Nat) (kf : A → K) (mname : String)
    (m : A → R → Except E V) (d : Registry C) (a1 a2 : A) (r1 r2 : R)
    (v1 : V)
    (hGetGet : ∀ (c : C) (k : K) (v : V) (c' : C),
      ct.get c k = Option.some (v, c') →
        ∃ c'', ct.get c' k = Option.some (v, c''))
    (hGetSet : ∀ (c : C) (k : K) (v : V) (c' : C),
      ct.set c k v = Option.some c' →
        ∃ c'', ct.get c' k = Option.some (v, c''))
    (hAccept : ∀ (c : C) (k : K) (v : V), (ct.set c k v).isSome = true)
    (hkey : kf a1 = kf a2)
    (hres : (wrapper ct cachesize kf mname m (Option.some d) a1 r1).result
      = Except.ok v1) :
    (wrapper ct cachesize kf mname m
        (wrapper ct cachesize kf mname m (Option.some d) a1 r1).cachedict
        a2 r2).result = Except.ok v1 ∧
    (wrapper ct cachesize kf mname m
        (wrapper ct cachesize kf mname m (Option.some d) a1 r1).cachedict
        a2 r2).invoked = false := by
  have key : ∃ d0 cstar,
      (wrapper ct cachesize kf mname m (Option.some d) a1 r1).cachedict =
        Option.some (alSet d0 mname cstar) ∧
      ∃ c2, ct.get cstar (kf a1) = Option.some (v1, c2) := by
    rw [wrapper_some_eq] at hres ⊢
    cases halg : alGet d mname with
    | some cache =>
      rw [wrapperLookup_found ct cachesize kf mname m d cache a1 r1 halg]
        at hres ⊢
      obtain ⟨cstar, hcd, hc2⟩ :=
        wrapperBody_result_cached ct kf mname m d cache false a1 r1 v1
          hGetGet hGetSet hAccept hres
      exact ⟨d, cstar, hcd, hc2⟩
    | none =>
      rw [wrapperLookup_create ct cachesize kf mname m d a1 r1 halg]
        at hres ⊢
      obtain ⟨cstar, hcd, hc2⟩ :=
        wrapperBody_result_cached ct kf mname m
          (alSet d mname (ct.new cachesize)) (ct.new cachesize) true a1 r1
          v1 hGetGet hGetSet hAccept hres
      exact ⟨alSet d mname (ct.new cachesize), cstar, hcd, hc2⟩
  obtain ⟨d0, cstar, hcd, c2, hget2⟩ := key
  rw [hcd, wrapper_some_eq,
    wrapperLookup_found ct cachesize kf mname m (alSet d0 mname cstar) cstar
      a2 r2 (alGet_alSet_self d0 mname cstar),
    wrapperBody_hit ct kf mname m (alSet d0 mname cstar) cstar false a2 r2
      v1 c2 (by rw [← hkey]; exact hget2)]
  exact ⟨rfl, rfl⟩

/-- Witness for C1: a concrete dict-backed cache, an empty registry, and two
separately constructed arrays with equal contents. -/
theorem C1_idempotent_caching_witness :
    (wrapper (dictCT (List Nat) Nat) 64 keyfcn_default "frob" exMethod
        (wrapper (dictCT (List Nat) Nat) 64 keyfcn_default "frob" exMethod
          (Option.some []) exA1 3).cachedict exA2 9).result =
      Except.ok 5 ∧
    (wrapper (dictCT (List Nat) Nat) 64 keyfcn_default "frob" exMethod
        (wrapper (dictCT (List Nat) Nat) 64 keyfcn_default "frob" exMethod
          (Option.some []) exA1 3).cachedict exA2 9).invoked = false :=
  C1_idempotent_caching (dictCT (List Nat) Nat) 64 keyfcn_default "frob"
    exMethod [] exA1 exA2 3 9 5
    (fun c k v c' h => dictCT_getGet c k v c' h)
    (fun c k v c' h => dictCT_getSet c k v c' h)
    (fun c k v => dictCT_accept c k v)
    (by rfl) (by rfl)

/-- Claim C2: only the distinguishing argument contributes to the cache key;
the remaining arguments are handed to the underlying method unmodified and
are not part of the key, so a second call that shares the distinguishing
argument but differs in the extra argument collides: it returns the value
the first call cached (computed from the first call's extra argument)
without invoking the underlying method. -/
theorem C2_rest_args_not_in_key {C K V A R E : Type} (ct : CacheType C K V)
    (cachesize : Nat) (kf : A → K) (mname : String)
    (m : A → R → Except E V) (d : Registry C) (cache : C) (a : A)
    (r1 r2 : R) (v1 : V) (c1 : C)
    (hGetSet : ∀ (c : C) (k : K) (v : V) (c' : C),
      ct.set c k v = Option.some c' →
        ∃ c'', ct.get c' k = Option.some (v, c''))
    (hc : alGet d mname = Option.some cache)
    (hmiss : ct.get cache (kf a) = Option.none)
    (hm : m a r1 = Except.ok v1)
    (hstore : ct.set cache (kf a) v1 = Option.some c1) :
    wrapper ct cachesize kf mname m (Option.some d) a r1 =
      CallResult.mk (Except.ok v1) (Option.some (alSet d mname c1))
        true false ∧
    (wrapper ct cachesize kf mname m
        (wrapper ct cachesize kf mname m (Option.some d) a r1).cachedict
        a r2).result = Except.ok v1 ∧
    (wrapper ct cachesize kf mname m
        (wrapper ct cachesize kf mname m (Option.some d) a r1).cachedict
        a r2).invoked = false := by
  have h1 : wrapper ct cachesize kf mname m (Option.some d) a r1 =
      CallResult.mk (Except.ok v1) (Option.some (alSet d mname c1))
        true false := by
    rw [wrapper_some_eq,
      wrapperLookup_found ct cachesize kf mname m d cache a r1 hc,
      wrapperBody_miss ct kf mname m d cache false a r1 hmiss, hm,
      computeStep_ok,
      storeAttempt_store ct mname d cache (kf a) false v1 c1 hstore]
  obtain ⟨c2, hc2⟩ := hGetSet cache (kf a) v1 c1 hstore
  have h2 : wrapper ct cachesize kf mname m
      (Option.some (alSet d mname c1)) a r2 =
      CallResult.mk (Except.ok v1)
        (Option.some (alSet (alSet d mname c1) mname c2)) false false := by
    rw [wrapper_some_eq,
      wrapperLookup_found ct cachesize kf mname m (alSet d mname c1) c1
        a r2 (alGet_alSet_self d mname c1),
      wrapperBody_hit ct kf mname m (alSet d mname c1) c1 false a r2
        v1 c2 hc2]
  rw [h1]
  exact ⟨rfl, by rw [show (CallResult.mk (Except.ok v1)
      (Option.some (alSet d mname c1)) true false :
      CallResult C V E).cachedict = Option.some (alSet d mname c1)
      from rfl, h2], by rw [show (CallResult.mk (Except.ok v1)
      (Option.some (alSet d mname c1)) true false :
      CallResult C V E).cachedict = Option.some (alSet d mname c1)
      from rfl, h2]⟩

/-- Witness for C2: with a dict-backed cache, the second call differs only
in the extra argument (9 instead of 3) yet returns the first call's value
5 without invoking the method. -/
theorem C2_rest_args_not_in_key_witness :
    wrapper (dictCT (List Nat) Nat) 64 keyfcn_default "spam" exMethod
      (Option.some [("spam", [])]) exA1 3 =
      CallResult.mk (Except.ok 5)
        (Option.some [("spam", [(keyfcn_default exA1, 5)])]) true false ∧
    (wrapper (dictCT (List Nat) Nat) 64 keyfcn_default "spam" exMethod
        (wrapper (dictCT (List Nat) Nat) 64 keyfcn_default "spam" exMethod
          (Option.some [("spam", [])]) exA1 3).cachedict exA1 9).result =
      Except.ok 5 ∧
    (wrapper (dictCT (List Nat) Nat) 64 keyfcn_default "spam" exMethod
        (wrapper (dictCT (List Nat) Nat) 64 keyfcn_default "spam" exMethod
          (Option.some [("spam", [])]) exA1 3).cachedict exA1 9).invoked =
      false :=
  C2_rest_args_not_in_key (dictCT (List Nat) Nat) 64 keyfcn_default "spam"
    exMethod [("spam", [])] [] exA1 3 9 5 [(keyfcn_default exA1, 5)]
    (fun c k v c' h => dictCT_getSet c k v c' h)
    (by rfl) (by rfl) (by rfl) (by rfl)

/-- Claim C3: when the cache rejects storing the computed value, the wrapper
still returns that value to the caller, the rejection is silent (no error
surfaces, the call is not aborted), no entry is added for the key (the
registry is returned unchanged), and a subsequent call with the same key
recomputes by invoking the underlying method again. -/
theorem C3_rejection_transparent {C K V A R E : Type} (ct : CacheType C K V)
    (cachesize : Nat) (kf : A → K) (mname : String)
    (m : A → R → Except E V) (d : Registry C) (cache : C) (a : A) (r : R)
    (v : V)
    (hc : alGet d mname = Option.some cache)
    (hmiss : ct.get cache (kf a) = Option.none)
    (hm : m a r = Except.ok v)
    (hrej : ct.set cache (kf a) v = Option.none) :
    wrapper ct cachesize kf mname m (Option.some d) a r =
      CallResult.mk (Except.ok v) (Option.some d) true false ∧
    (wrapper ct cachesize kf mname m
        (wrapper ct cachesize kf mname m (Option.some d) a r).cachedict
        a r).invoked = true := by
  have h1 : wrapper ct cachesize kf mname m (Option.some d) a r =
      CallResult.mk (Except.ok v) (Option.some d) true false := by
    rw [wrapper_some_eq,
      wrapperLookup_found ct cachesize kf mname m d cache a r hc,
      wrapperBody_miss ct kf mname m d cache false a r hmiss, hm,
      computeStep_ok,
      storeAttempt_reject ct mname d cache (kf a) false v hrej]
  refine ⟨h1, ?_⟩
  rw [h1, show (CallResult.mk (Except.ok v) (Option.some d) true false :
    CallResult C V E).cachedict = Option.some d from rfl, h1]

/-- Witness for C3: an LRU cache of capacity 0 rejects every store; the call
still returns the computed value 5, the registry is unchanged, and the
repeated call invokes the method again. -/
theorem C3_rejection_transparent_witness :
    wrapper (lruCT (List Nat) Nat) 0 keyfcn_default "frob" exMethod
      (Option.some [("frob", LRUCacheM.mk 0 [])]) exA1 3 =
      CallResult.mk (Except.ok 5)
        (Option.some [("frob", LRUCacheM.mk 0 [])]) true false ∧
    (wrapper (lruCT (List Nat) Nat) 0 keyfcn_default "frob" exMethod
        (wrapper (lruCT (List Nat) Nat) 0 keyfcn_default "frob" exMethod
          (Option.some [("frob", LRUCacheM.mk 0 [])]) exA1 3).cachedict
        exA1 3).invoked = true :=
  C3_rejection_transparent (lruCT (List Nat) Nat) 0 keyfcn_default "frob"
    exMethod [("frob", LRUCacheM.mk 0 [])] (LRUCacheM.mk 0 []) exA1 3 5
    (by rfl) (by rfl) (by rfl) (by rfl)

/-- Claim C4: an exception raised by the underlying method propagates
unchanged to the caller, nothing is cached under the derived key (the
registry is returned unchanged), and a subsequent call with the same key
misses again and invokes the underlying method again. -/
theorem C4_failure_not_cached {C K V A R E : Type} (ct : CacheType C K V)
    (cachesize : Nat) (kf : A → K) (mname : String)
    (m : A → R → Except E V) (d : Registry C) (cache : C) (a : A) (r : R)
    (e : E)
    (hc : alGet d mname = Option.some cache)
    (hmiss : ct.get cache (kf a) = Option.none)
    (hm : m a r = Except.error e) :
    wrapper ct cachesize kf mname m (Option.some d) a r =
      CallResult.mk (Except.error (PyErr.raised e)) (Option.some d)
        true false ∧
    (wrapper ct cachesize kf mname m
        (wrapper ct cachesize kf mname m (Option.some d) a r).cachedict
        a r).invoked = true := by
  have h1 : wrapper ct cachesize kf mname m (Option.some d) a r =
      CallResult.mk (Except.error (PyErr.raised e)) (Option.some d)
        true false := by
    rw [wrapper_some_eq,
      wrapperLookup_found ct cachesize kf mname m d cache a r hc,
      wrapperBody_miss ct kf mname m d cache false a r hmiss, hm,
      computeStep_error]
  refine ⟨h1, ?_⟩
  rw [h1, show (CallResult.mk (Except.error (PyErr.raised e))
    (Option.some d) true false :
    CallResult C V E).cachedict = Option.some d from rfl, h1]

/-- Witness for C4: a method that raises; the exception escapes unchanged,
the registry keeps its empty cache, and the repeated call invokes the
method again. -/
theorem C4_failure_not_cached_witness :
    wrapper (dictCT (List Nat) Nat) 64 keyfcn_default "frob" exFailMethod
      (Option.some [("frob", [])]) exA1 3 =
      CallResult.mk (Except.error (PyErr.raised "boom"))
        (Option.some [("frob", [])]) true false ∧
    (wrapper (dictCT (List Nat) Nat) 64 keyfcn_default "frob" exFailMethod
        (wrapper (dictCT (List Nat) Nat) 64 keyfcn_default "frob"
          exFailMethod (Option.some [("frob", [])]) exA1 3).cachedict
        exA1 3).invoked = true :=
  C4_failure_not_cached (dictCT (List Nat) Nat) 64 keyfcn_default "frob"
    exFailMethod [("frob", [])] [] exA1 3 "boom"
    (by rfl) (by rfl) (by rfl)

/-- Claim C5: calling a decorated method on an instance whose cache registry
is absent fails with a hard AttributeError that propagates to the caller;
the wrapper does not recover from or mask it (no registry is created, the
underlying method is never invoked, no cache is constructed). -/
theorem C5_registry_absent_fatal {C K V A R E : Type} (ct : CacheType C K V)
    (cachesize : Nat) (kf : A → K) (mname : String)
    (m : A → R → Except E V) (a : A) (r : R) :
    wrapper ct cachesize kf mname m Option.none a r =
      CallResult.mk (Except.error PyErr.attributeError) Option.none
        false false := rfl

/-- Claim C6: across any sequence of calls of one decorated method on one
instance, at most one cache (eviction-policy) object is ever constructed
and registered for that (instance, method name) pair: once a call has
registered one, every later call reuses it instead of constructing a
second one. -/
theorem C6_at_most_one_cache {C K V A R E : Type} (ct : CacheType C K V)
    (cachesize : Nat) (kf : A → K) (mname : String)
    (m : A → R → Except E V) (st : Option (Registry C))
    (calls : List (A × R)) :
    (runCalls ct cachesize kf mname m st calls).2 ≤ 1 := by
  cases calls with
  | nil => exact Nat.zero_le 1
  | cons c rest =>
    obtain ⟨a, r⟩ := c
    simp only [runCalls]
    rw [runCalls_ready_zero ct cachesize kf mname m rest _
      (wrapper_ready_after ct cachesize kf mname m st a r)]
    cases (wrapper ct cachesize kf mname m st a r).constructed <;> simp

/-- Claim C7: with the cache type disabled (cachetype None), the decorated
method is the original method: every call invokes the underlying
computation and passes its outcome straight through, and the registry is
never read, written, or populated. -/
theorem C7_disabled_passthrough {C K V A R E : Type} (cachesize : Nat)
    (keyfcn : A → K) (m : RawMethod A R V E) (st : Option (Registry C))
    (a : A) (r : R) :
    (memoized (Option.none : Option (CacheType C K V)) cachesize keyfcn
        m).call st a r = plainCall m.fn st a r ∧
    (plainCall m.fn st a r).cachedict = st ∧
    (plainCall m.fn st a r).invoked = true ∧
    (plainCall m.fn st a r).constructed = false :=
  ⟨rfl, rfl, rfl, rfl⟩

/-- Claim C8: the default key function yields equal keys for any two arrays
whose contents are element-wise identical, independent of the arrays'
object identity. -/
theorem C8_key_content_only (a b : NDArray) (h : a.data = b.data) :
    keyfcn_default a = keyfcn_default b := by
  unfold keyfcn_default NDArray.tostring
  rw [h]

/-- Witness for C8: two separately constructed arrays with equal contents
and distinct identity tags receive equal keys. -/
theorem C8_key_content_only_witness :
    exA1.data = exA2.data ∧ keyfcn_default exA1 = keyfcn_default exA2 :=
  ⟨rfl, C8_key_content_only exA1 exA2 rfl⟩

/-- Claim C9: for any enabled (non-None) cache configuration, the decorated
method's name and docstring are identical to the original method's. -/
theorem C9_metadata_preserved {C K V A R E : Type} (ct : CacheType C K V)
    (cachesize : Nat) (keyfcn : A → K) (m : RawMethod A R V E) :
    (memoized (Option.some ct) cachesize keyfcn m).name = m.name ∧
    (memoized (Option.some ct) cachesize keyfcn m).doc = m.doc :=
  ⟨rfl, rfl⟩

/-- Claim C10: every run of the mixin's initializer rebinds the instance's
cache registry to a fresh empty mapping regardless of the arguments it
receives and of any previously registered caches (so re-running it
discards every existing cache), and it touches no other instance state
(no superclass delegation). -/
theorem C10_mixin_init_rebinds {C S P Q : Type} (self : MixinInstance C S)
    (args : P) (kwargs : Q) (args2 : P) (kwargs2 : Q) :
    ArrayMethodCacheMixin_init self args kwargs =
      MixinInstance.mk (Option.some []) self.other ∧
    ArrayMethodCacheMixin_init self args kwargs =
      ArrayMethodCacheMixin_init self args2 kwargs2 :=
  ⟨rfl, rfl⟩
